import Mathlib

/-!
# Verification of the simple-proxy manifest rewriter and segment cache

Shallow embedding of `src/routes/m3u8-proxy.ts` and `src/routes/ts-proxy.ts`.
JavaScript strings are modelled by Lean `String`, the JS `Map` (which iterates
in insertion order) by an association list, `Date.now()` timestamps by `Int`,
and `Uint8Array` payloads by `List Nat`.  External platform facilities — the
WHATWG `new URL` constructor and `fetch` — are passed in as explicit oracle
parameters, mirroring that they are collaborators outside the repository.
-/

set_option maxHeartbeats 1000000

/-- The set of characters treated as whitespace by JavaScript's
`String.prototype.trim` and by the regex class `\s`. -/
def jsWhitespace (c : Char) : Bool :=
  c == ' ' || c == '\t' || c == '\n' || c == '\x0B' || c == '\x0C' || c == '\r' ||
  c == '\u00A0' || c == '\uFEFF' || c == '\u1680' ||
  ('\u2000' ≤ c && c ≤ '\u200A') ||
  c == '\u2028' || c == '\u2029' || c == '\u202F' || c == '\u205F' || c == '\u3000'

/-- Truthiness of `s.trim()` in JavaScript: true iff some character of `s`
is not whitespace. -/
def jsTrimmedNonempty (s : String) : Bool :=
  s.toList.any (fun c => !jsWhitespace c)

/-- JavaScript `s.startsWith(p)`. -/
def jsStartsWith (s p : String) : Bool :=
  p.toList.isPrefixOf s.toList

/-- Does `sub` occur as a contiguous run anywhere in `cs`? -/
def containsSeq (sub : List Char) : List Char → Bool
  | [] => sub.isEmpty
  | c :: rest => sub.isPrefixOf (c :: rest) || containsSeq sub rest

/-- JavaScript `s.includes(sub)`. -/
def jsIncludes (s sub : String) : Bool :=
  containsSeq sub.toList s.toList

/-- If `lit` is a literal (case-sensitive) leading part of `cs`, return the
remaining characters. -/
def stripLit (lit : List Char) (cs : List Char) : Option (List Char) :=
  match lit, cs with
  | [], rest => some rest
  | p :: ps, c :: rest => if c == p then stripLit ps rest else none
  | _ :: _, [] => none

/-- Helper for `jsSplit`: scan with an accumulator, splitting at each
occurrence of `sep`; fuel makes the definition structurally recursive so
that it evaluates inside the kernel. -/
def jsSplitAux (sep : List Char) : Nat → List Char → List Char → List (List Char)
  | 0, acc, _ => [acc.reverse]
  | fuel + 1, acc, cs =>
    match cs with
    | [] => [acc.reverse]
    | c :: rest =>
      match stripLit sep (c :: rest) with
      | some r => acc.reverse :: jsSplitAux sep fuel [] r
      | none => jsSplitAux sep fuel (c :: acc) rest

/-- JavaScript `s.split(sep)` for a non-empty separator (the handlers only
ever split on `"\n"`). -/
def jsSplit (s sep : String) : List String :=
  (jsSplitAux sep.toList (s.toList.length + 1) [] s.toList).map String.mk

/-- ASCII lower-casing, as used by the `/i` regex flag on `http`/`https`
literals. -/
def asciiLower (c : Char) : Char :=
  if 'A' ≤ c ∧ c ≤ 'Z' then Char.ofNat (c.toNat + 32) else c

/-- Case-insensitive literal leading-part match; returns the matched source
text (original casing) and the remaining characters. -/
def stripLitCI (lit : List Char) (cs : List Char) : Option (List Char × List Char) :=
  match lit, cs with
  | [], rest => some ([], rest)
  | p :: ps, c :: rest =>
    if asciiLower c == asciiLower p then
      (stripLitCI ps rest).map (fun m => (c :: m.1, m.2))
    else none
  | _ :: _, [] => none

/-- Case-insensitive `startsWith`, as in the test `/^https?:/i`. -/
def startsWithCI (s p : String) : Bool :=
  (stripLitCI p.toList s.toList).isSome

/-- The characters `encodeURIComponent` leaves unescaped (ECMA-262's
`uriUnescaped` set). -/
def uriUnreserved (c : Char) : Bool :=
  ('A' ≤ c && c ≤ 'Z') || ('a' ≤ c && c ≤ 'z') || ('0' ≤ c && c ≤ '9') ||
  c == '-' || c == '_' || c == '.' || c == '!' || c == '~' || c == '*' ||
  c == '\'' || c == '(' || c == ')'

/-- UTF-8 encoding of one Unicode scalar value. -/
def utf8Bytes (c : Char) : List Nat :=
  let n := c.toNat
  if n < 0x80 then [n]
  else if n < 0x800 then [0xC0 + n / 64, 0x80 + n % 64]
  else if n < 0x10000 then [0xE0 + n / 4096, 0x80 + (n / 64) % 64, 0x80 + n % 64]
  else [0xF0 + n / 262144, 0x80 + (n / 4096) % 64, 0x80 + (n / 64) % 64, 0x80 + n % 64]

/-- Upper-case hexadecimal digit for `0 ≤ n < 16`. -/
def hexDigitUpper (n : Nat) : Char :=
  if n < 10 then Char.ofNat ('0'.toNat + n) else Char.ofNat ('A'.toNat + n - 10)

/-- Lower-case hexadecimal digit for `0 ≤ n < 16`. -/
def hexDigitLower (n : Nat) : Char :=
  if n < 10 then Char.ofNat ('0'.toNat + n) else Char.ofNat ('a'.toNat + n - 10)

/-- Percent-escape of one byte, e.g. `%2F`. -/
def percentByte (b : Nat) : List Char :=
  ['%', hexDigitUpper (b / 16), hexDigitUpper (b % 16)]

/-- ECMA-262 `encodeURIComponent`: unreserved characters are kept, every other
character is percent-encoded byte-by-byte through UTF-8. -/
def encodeURIComponent (s : String) : String :=
  String.mk ((s.toList.map (fun c =>
    if uriUnreserved c then [c] else (utf8Bytes c).map percentByte |>.flatten)).flatten)

/-- Values produced by `JSON.parse`.  Number literals keep their source
lexeme (IEEE-754 re-formatting by `JSON.stringify` is not modelled; no claim
depends on it).  Object fields are kept in textual order with duplicates
retained (JavaScript's last-wins de-duplication and integer-key reordering
are not modelled; no claim depends on object-valued headers' order). -/
inductive JsonValue where
  | null : JsonValue
  | bool (b : Bool) : JsonValue
  | num (lexeme : String) : JsonValue
  | str (s : String) : JsonValue
  | arr (elems : List JsonValue) : JsonValue
  | obj (fields : List (String × JsonValue)) : JsonValue

/-- Numeric value of a hexadecimal digit character. -/
def hexVal (c : Char) : Option Nat :=
  if '0' ≤ c ∧ c ≤ '9' then some (c.toNat - '0'.toNat)
  else if 'a' ≤ c ∧ c ≤ 'f' then some (c.toNat - 'a'.toNat + 10)
  else if 'A' ≤ c ∧ c ≤ 'F' then some (c.toNat - 'A'.toNat + 10)
  else none

/-- Four hex digits, as in a `\uXXXX` escape. -/
def parseHex4 (cs : List Char) : Option (Nat × List Char) :=
  match cs with
  | a :: b :: c :: d :: rest =>
    match hexVal a, hexVal b, hexVal c, hexVal d with
    | some x, some y, some z, some w => some (x * 4096 + y * 256 + z * 16 + w, rest)
    | _, _, _, _ => none
  | _ => none

/-- JSON insignificant whitespace. -/
def skipWs : List Char → List Char
  | c :: cs => if c == ' ' || c == '\t' || c == '\n' || c == '\r' then skipWs cs else c :: cs
  | [] => []

/-- Characters of a JSON string literal, after the opening quote.  Surrogate
pairs in `\u` escapes are combined; a lone surrogate (which JavaScript would
keep as an unpaired code unit, unrepresentable as a Lean `Char`) is replaced
by U+FFFD — a documented deviation no claim depends on. -/
def jstrChars (fuel : Nat) (cs : List Char) : Option (List Char × List Char) :=
  match fuel with
  | 0 => none
  | fuel + 1 =>
    let cont := fun (c : Char) (r : List Char) =>
      (jstrChars fuel r).map (fun sr => (c :: sr.1, sr.2))
    match cs with
    | [] => none
    | '"' :: rest => some ([], rest)
    | '\\' :: e :: rest =>
      match e with
      | '"' => cont '"' rest
      | '\\' => cont '\\' rest
      | '/' => cont '/' rest
      | 'b' => cont '\x08' rest
      | 'f' => cont '\x0C' rest
      | 'n' => cont '\n' rest
      | 'r' => cont '\r' rest
      | 't' => cont '\t' rest
      | 'u' =>
        match parseHex4 rest with
        | none => none
        | some (n, rest2) =>
          if 0xD800 ≤ n ∧ n ≤ 0xDBFF then
            match rest2 with
            | '\\' :: 'u' :: rest3 =>
              match parseHex4 rest3 with
              | some (m, rest4) =>
                if 0xDC00 ≤ m ∧ m ≤ 0xDFFF then
                  cont (Char.ofNat (0x10000 + (n - 0xD800) * 1024 + (m - 0xDC00))) rest4
                else
                  (jstrChars fuel ('\\' :: 'u' :: rest3)).map (fun sr => ('\uFFFD' :: sr.1, sr.2))
              | none => none
            | _ => cont '\uFFFD' rest2
          else if 0xDC00 ≤ n ∧ n ≤ 0xDFFF then cont '\uFFFD' rest2
          else cont (Char.ofNat n) rest2
      | _ => none
    | c :: rest => if c.toNat < 0x20 then none else cont c rest

/-- One or more decimal digits. -/
def digits1 (cs : List Char) : Option (List Char × List Char) :=
  let sp := cs.span Char.isDigit
  if sp.1.isEmpty then none else some sp

/-- JSON number grammar: integer part `0 | [1-9][0-9]*`. -/
def parseIntPart : List Char → Option (List Char × List Char)
  | '0' :: rest => some (['0'], rest)
  | c :: rest =>
    if c.isDigit then
      let sp := rest.span Char.isDigit
      some (c :: sp.1, sp.2)
    else none
  | [] => none

/-- JSON number grammar: optional fraction `.[0-9]+`. -/
def parseFracPart : List Char → Option (List Char × List Char)
  | '.' :: rest => (digits1 rest).map (fun p => ('.' :: p.1, p.2))
  | cs => some ([], cs)

/-- JSON number grammar: optional exponent `[eE][+-]?[0-9]+`. -/
def parseExpPart : List Char → Option (List Char × List Char)
  | c :: rest =>
    if c == 'e' || c == 'E' then
      match rest with
      | s :: rest2 =>
        if s == '+' || s == '-' then (digits1 rest2).map (fun p => (c :: s :: p.1, p.2))
        else (digits1 rest).map (fun p => (c :: p.1, p.2))
      | [] => none
    else some ([], c :: rest)
  | [] => some ([], [])

/-- A JSON number literal; returns its lexeme. -/
def parseNumber (cs : List Char) : Option (List Char × List Char) :=
  let sc := match cs with
    | '-' :: r => (['-'], r)
    | _ => (([] : List Char), cs)
  match parseIntPart sc.2 with
  | none => none
  | some (ip, cs2) =>
    match parseFracPart cs2 with
    | none => none
    | some (fp, cs3) =>
      match parseExpPart cs3 with
      | none => none
      | some (ep, cs4) => some (sc.1 ++ ip ++ fp ++ ep, cs4)

mutual

/-- One JSON value (leading whitespace allowed), with explicit fuel. -/
def parseValue : Nat → List Char → Option (JsonValue × List Char)
  | 0, _ => none
  | fuel + 1, cs =>
    match skipWs cs with
    | 'n' :: 'u' :: 'l' :: 'l' :: rest => some (.null, rest)
    | 't' :: 'r' :: 'u' :: 'e' :: rest => some (.bool true, rest)
    | 'f' :: 'a' :: 'l' :: 's' :: 'e' :: rest => some (.bool false, rest)
    | '"' :: rest =>
      (jstrChars (rest.length + 1) rest).map (fun sr => (.str (String.mk sr.1), sr.2))
    | '[' :: rest => parseArrayItems fuel rest true
    | '{' :: rest => parseObjectItems fuel rest true
    | cs2 => (parseNumber cs2).map (fun lr => (.num (String.mk lr.1), lr.2))

/-- Items of a JSON array, after `[` (`first = true`) or after `,`. -/
def parseArrayItems : Nat → List Char → Bool → Option (JsonValue × List Char)
  | 0, _, _ => none
  | fuel + 1, cs, first =>
    match skipWs cs with
    | ']' :: rest => if first then some (.arr [], rest) else none
    | _ =>
      match parseValue fuel cs with
      | none => none
      | some (v, r) =>
        match skipWs r with
        | ',' :: r2 =>
          match parseArrayItems fuel r2 false with
          | some (.arr vs, r3) => some (.arr (v :: vs), r3)
          | _ => none
        | ']' :: r2 => some (.arr [v], r2)
        | _ => none

/-- Members of a JSON object, after `{` (`first = true`) or after `,`. -/
def parseObjectItems : Nat → List Char → Bool → Option (JsonValue × List Char)
  | 0, _, _ => none
  | fuel + 1, cs, first =>
    match skipWs cs with
    | '}' :: rest => if first then some (.obj [], rest) else none
    | '"' :: rest =>
      match jstrChars (rest.length + 1) rest with
      | none => none
      | some (k, r) =>
        match skipWs r with
        | ':' :: r2 =>
          match parseValue fuel r2 with
          | none => none
          | some (v, r3) =>
            match skipWs r3 with
            | ',' :: r4 =>
              match parseObjectItems fuel r4 false with
              | some (.obj ps, r5) => some (.obj ((String.mk k, v) :: ps), r5)
              | _ => none
            | '}' :: r4 => some (.obj [(String.mk k, v)], r4)
            | _ => none
        | _ => none
    | _ => none

end

/-- `JSON.parse`: one value with surrounding whitespace, whole input consumed;
`none` models a thrown `SyntaxError`. -/
def jsonParse (s : String) : Option JsonValue :=
  match parseValue (2 * s.length + 4) s.toList with
  | none => none
  | some (v, rest) => if (skipWs rest).isEmpty then some v else none

/-- `JSON.stringify` escaping of one string character. -/
def escapeJsonChar (c : Char) : List Char :=
  if c == '"' then ['\\', '"']
  else if c == '\\' then ['\\', '\\']
  else if c == '\x08' then ['\\', 'b']
  else if c == '\x0C' then ['\\', 'f']
  else if c == '\n' then ['\\', 'n']
  else if c == '\r' then ['\\', 'r']
  else if c == '\t' then ['\\', 't']
  else if c.toNat < 0x20 then
    ['\\', 'u', '0', '0', hexDigitLower (c.toNat / 16), hexDigitLower (c.toNat % 16)]
  else [c]

/-- `JSON.stringify` of a string value. -/
def quoteJsonString (s : String) : String :=
  "\"" ++ String.mk ((s.toList.map escapeJsonChar).flatten) ++ "\""

mutual

/-- `JSON.stringify` (numbers emit their preserved lexeme, see `JsonValue`). -/
def jsonStringify : JsonValue → String
  | .null => "null"
  | .bool true => "true"
  | .bool false => "false"
  | .num lex => lex
  | .str s => quoteJsonString s
  | .arr xs => "[" ++ String.intercalate "," (jsonStringifyList xs) ++ "]"
  | .obj fs => "\x7b" ++ String.intercalate "," (jsonStringifyFields fs) ++ "\x7d"

/-- `JSON.stringify` of array elements. -/
def jsonStringifyList : List JsonValue → List String
  | [] => []
  | x :: xs => jsonStringify x :: jsonStringifyList xs

/-- `JSON.stringify` of object members. -/
def jsonStringifyFields : List (String × JsonValue) → List String
  | [] => []
  | (k, v) :: fs => (quoteJsonString k ++ ":" ++ jsonStringify v) :: jsonStringifyFields fs

end

/-- Own enumerable properties contributed by `...v` in a JavaScript object
literal: objects contribute their fields, strings contribute one property per
character under its index key, arrays one per element; `null`, booleans and
numbers contribute nothing. -/
def jsonOwnEnumerable : JsonValue → List (String × JsonValue)
  | .null => []
  | .bool _ => []
  | .num _ => []
  | .str s => s.toList.enum.map (fun ic => (toString ic.1, JsonValue.str (String.mk [ic.2])))
  | .arr xs => xs.enum.map (fun ix => (toString ix.1, ix.2))
  | .obj fs => fs

/-- The fixed identifying header both fetch paths send by default. -/
def defaultUserAgent : String :=
  "Mozilla/5.0 (Windows NT 10.0; Win64; x64; rv:93.0) Gecko/20100101 Firefox/93.0"

/-- The outgoing origin-request header set
`{'User-Agent': ..., ...headers}` (later entries shadow earlier ones, as in a
JavaScript object literal). -/
def mergedFetchHeaders (headers : JsonValue) : List (String × JsonValue) :=
  ("User-Agent", JsonValue.str defaultUserAgent) :: jsonOwnEnumerable headers

/-!
## URL resolver (`parseURL`, `src/routes/m3u8-proxy.ts` lines 6–40)

The final step of the no-base branch hands a preprocessed string to the
platform's WHATWG `new URL` constructor; the constructor is modelled as an
oracle `String → Option URLParts` (`none` models a thrown `TypeError`).
The with-base branch `new URL(req_url, baseUrl).href` is likewise an oracle
`String → String → Option String`.
-/

/-- The observable outputs of a successfully constructed WHATWG `URL`. -/
structure URLParts where
  hostname : String
  href : String
deriving DecidableEq

/-- Result of the regex
`^(?:(https?:)?\/\/)?(([^\/?]+?)(?::(\d{0,5})(?=[\/?]|$))?)([\/?][\S\s]*|$)`
applied with the `i` flag: capture 1 (scheme), capture 3 (host),
capture 4 (port digits) and capture 5 (path). -/
structure M3U8RegexMatch where
  scheme : Option String
  host : String
  port : Option String
  path : String
deriving DecidableEq

/-- Is the character a path opener for the classes `[\/?]`? -/
def isPathStart (c : Char) : Bool := c == '/' || c == '?'

/-- `(?::(\d{0,5})(?=[\/?]|$))?([\/?][\S\s]*|$)` at the current position:
the greedy optional port (a `:` followed by the run of leading digits,
admissible only when the run has length ≤ 5 and ends at `/`, `?` or the end
of input — shorter backtracked digit counts always fail the lookahead),
then the path alternative. -/
def matchPortPath (cs : List Char) : Option (Option String × String) :=
  let tryPath : List Char → Option String := fun r =>
    match r with
    | [] => some ""
    | c :: _ => if isPathStart c then some (String.mk r) else none
  match cs with
  | ':' :: r2 =>
    let sp := r2.span Char.isDigit
    match (if sp.1.length ≤ 5 then (tryPath sp.2).map (fun p => (some (String.mk sp.1), p))
           else none : Option (Option String × String)) with
    | some res => some res
    | none => (tryPath cs).map (fun p => ((none : Option String), p))
  | _ => (tryPath cs).map (fun p => ((none : Option String), p))

/-- The lazy host `[^\/?]+?` followed by `matchPortPath`: the host is grown
one character at a time (shortest first), stopping at the first suffix where
port-and-path match. -/
def hostLoop (acc : List Char) (cs : List Char) :
    Option (String × Option String × String) :=
  match cs with
  | [] => none
  | c :: rest =>
    if isPathStart c then none
    else
      match matchPortPath rest with
      | some (port, path) => some (String.mk (acc ++ [c]), port, path)
      | none => hostLoop (acc ++ [c]) rest

/-- `req_url.match(/^(?:(https?:)?\/\/)?(([^\/?]+?)(?::(\d{0,5})(?=[\/?]|$))?)([\/?][\S\s]*|$)/i)`.
The optional prefix is tried greedily (`https?:` + `//` first, then bare
`//`, then nothing), falling through when the rest of the pattern cannot
match, exactly as the backtracking engine does. -/
def matchM3U8URL (s : String) : Option M3U8RegexMatch :=
  let cs := s.toList
  let afterScheme : List Char × List Char → Option M3U8RegexMatch := fun m =>
    match m.2 with
    | '/' :: '/' :: r =>
      (hostLoop [] r).map (fun hpp => ⟨some (String.mk m.1), hpp.1, hpp.2.1, hpp.2.2⟩)
    | _ => none
  let try1 : Option M3U8RegexMatch :=
    match stripLitCI "https:".toList cs with
    | some m => afterScheme m
    | none =>
      match stripLitCI "http:".toList cs with
      | some m => afterScheme m
      | none => none
  let try2 : Option M3U8RegexMatch :=
    match cs with
    | '/' :: '/' :: r =>
      (hostLoop [] r).map (fun hpp => ⟨none, hpp.1, hpp.2.1, hpp.2.2⟩)
    | _ => none
  let try3 : Option M3U8RegexMatch :=
    (hostLoop [] cs).map (fun hpp => ⟨none, hpp.1, hpp.2.1, hpp.2.2⟩)
  try1 <|> try2 <|> try3

/-- The string `parseURL` hands to `new URL` in the no-base branch, when it
reaches that call: the input itself when the regex captured a scheme;
nothing when the input claims to be absolute (`/^https?:/i`) without a
captured scheme; otherwise the input prefixed with `//` (unless already
present) and a default scheme — `https:` exactly when the captured port is
the string `"443"`, else `http:`. -/
def processedURL (req_url : String) : Option String :=
  match matchM3U8URL req_url with
  | none => none
  | some m =>
    if m.scheme.isSome then some req_url
    else if startsWithCI req_url "http:" || startsWithCI req_url "https:" then none
    else
      let r1 := if jsStartsWith req_url "//" then req_url else "//" ++ req_url
      some ((if m.port == some "443" then "https:" else "http:") ++ r1)

/-- `parseURL(req_url)` with no base (`src/routes/m3u8-proxy.ts` 6–40):
regex extraction, scheme defaulting, then the `new URL` constructor
(`newURL` oracle), rejecting an empty hostname. -/
def parseURLNoBase (newURL : String → Option URLParts) (req_url : String) :
    Option String :=
  match processedURL req_url with
  | none => none
  | some u =>
    match newURL u with
    | none => none
    | some parts => if parts.hostname == "" then none else some parts.href

/-- `parseURL(req_url, baseUrl)`: with a truthy base the function returns
`new URL(req_url, baseUrl).href` **with no try/catch** — the `newURL2`
oracle, whose `.error msg` is a propagating thrown `TypeError`; otherwise
the no-base branch runs (which never throws: it returns `null`). -/
def parseURL (newURL : String → Option URLParts)
    (newURL2 : String → String → Except String String)
    (req_url : String) (baseUrl : Option String) : Except String (Option String) :=
  match baseUrl with
  | some b =>
    if b == "" then .ok (parseURLNoBase newURL req_url)
    else (newURL2 req_url b).map some
  | none => .ok (parseURLNoBase newURL req_url)

/-!
## Segment cache (`src/routes/m3u8-proxy.ts` lines 42–172)
-/

/-- One cached segment (`interface CacheEntry`). -/
structure CacheEntry where
  data : List Nat
  headers : List (String × String)
  timestamp : Int
deriving DecidableEq

/-- `CACHE_MAX_SIZE`. -/
def CACHE_MAX_SIZE : Nat := 2000

/-- `CACHE_EXPIRY_MS` (2 hours). -/
def CACHE_EXPIRY_MS : Int := 2 * 60 * 60 * 1000

/-- The `segmentCache` map, with JS `Map` iteration (= insertion) order. -/
abbrev Cache := List (String × CacheEntry)

/-- Is the entry expired at `now`? (`now - entry.timestamp > CACHE_EXPIRY_MS`). -/
def entryExpired (now : Int) (e : String × CacheEntry) : Bool :=
  decide (now - e.2.timestamp > CACHE_EXPIRY_MS)

/-- First pass of `cleanupCache`: delete every expired entry. -/
def expireSweep (now : Int) (c : Cache) : Cache :=
  c.filter (fun e => !entryExpired now e)

/-- `cleanupCache()` (lines 52–80): delete expired entries; then, if the map
still holds more than `CACHE_MAX_SIZE` entries, sort the remaining entries
by ascending `timestamp` (JS `Array.prototype.sort` is stable; `mergeSort`
with `≤` matches it) and delete the first `size - CACHE_MAX_SIZE` of them
by key. -/
def cleanupCache (now : Int) (c : Cache) : Cache :=
  let c1 := expireSweep now c
  if c1.length > CACHE_MAX_SIZE then
    let sorted := c1.mergeSort (fun a b => decide (a.2.timestamp ≤ b.2.timestamp))
    let toRemove := sorted.take (c1.length - CACHE_MAX_SIZE)
    c1.filter (fun e => !toRemove.any (fun r => r.1 == e.1))
  else c1

/-- `getCachedSegment(url)` (lines 141–156).  Returns the entry and the map
after the read: `undefined` at once when the cache is disabled; a fresh entry
is returned as a hit; an expired entry is deleted (`Map.delete`, removing
the sole binding of that key) and reported as a miss. -/
def getCachedSegment (cacheDisabled : Bool) (now : Int) (url : String) (c : Cache) :
    Option CacheEntry × Cache :=
  if cacheDisabled then (none, c)
  else
    match c.find? (fun e => e.1 == url) with
    | some e =>
      if now - e.2.timestamp > CACHE_EXPIRY_MS then
        (none, c.eraseP (fun x => x.1 == url))
      else (some e.2, c)
    | none => (none, c)

/-- The data of `getCacheStats()` (lines 158–172).  `totalSizeMB` and
`avgEntrySizeKB` are `toFixed(2)` decimal renderings of
`totalBytes / 2^20` and `totalBytes / entries / 2^10`; the underlying byte
totals are modelled and the IEEE-754 division/formatting is elided. -/
structure CacheStatsData where
  entries : Nat
  totalBytes : Nat
  maxSize : Nat
  expiryHours : Int
deriving DecidableEq

/-- `getCacheStats()`. -/
def getCacheStats (c : Cache) : CacheStatsData :=
  { entries := c.length
    totalBytes := (c.map (fun e => e.2.data.length)).sum
    maxSize := CACHE_MAX_SIZE
    expiryHours := CACHE_EXPIRY_MS / (60 * 60 * 1000) }

/-- `handleCacheStats(event)` (lines 354–361): run `cleanupCache`, then
report the stats of the cleaned map. -/
def handleCacheStats (now : Int) (c : Cache) : CacheStatsData × Cache :=
  let c2 := cleanupCache now c
  (getCacheStats c2, c2)

/-!
## Playlist rewriting (`proxyM3U8`, lines 177–352)

Inside `proxyM3U8` every per-line resolution is `parseURL(line, url)` with
the request's `url` as base — the always-truthy-base branch, which is
`new URL(req_url, baseUrl).href` with **no try/catch** (lines 6–9).  The
constructor either returns an `href` or throws a `TypeError`; a throw
propagates out of `parseURL`, aborts the rewrite loop, and is caught only
by `proxyM3U8`'s outer catch, which answers `500`.  The resolver is
therefore an oracle `resolve : String → Except String String`:
`.ok href` is a returned href (always non-empty in reality, so the
source's `if (variantUrl)` falsiness check is modelled but unreachable),
`.error msg` is a throw with message `msg`.
`JSON.stringify(headers)` is one fixed string per request, passed as `hj`.
-/

/-- `${baseProxyUrl}/ts-proxy?url=${encodeURIComponent(u)}&headers=${encodeURIComponent(hj)}`. -/
def tsProxyUrl (base u hj : String) : String :=
  base ++ "/ts-proxy?url=" ++ encodeURIComponent u ++ "&headers=" ++ encodeURIComponent hj

/-- `${baseProxyUrl}/m3u8-proxy?url=${encodeURIComponent(u)}&headers=${encodeURIComponent(hj)}`. -/
def m3u8ProxyUrl (base u hj : String) : String :=
  base ++ "/m3u8-proxy?url=" ++ encodeURIComponent u ++ "&headers=" ++ encodeURIComponent hj

/-- First match of `/https?:\/\/[^\""\s]+/` in the line (case-sensitive):
scan left to right for a literal `https://` or `http://` followed by at
least one character that is neither `"` nor whitespace, and take the maximal
run of such characters. -/
def extractHttpUrlAux : List Char → Option (List Char)
  | [] => none
  | c :: rest =>
    match stripLit "https://".toList (c :: rest) with
    | some r =>
      let sp := r.span (fun ch => !(ch == '"' || jsWhitespace ch))
      if sp.1.isEmpty then extractHttpUrlAux rest
      else some ("https://".toList ++ sp.1)
    | none =>
      match stripLit "http://".toList (c :: rest) with
      | some r =>
        let sp := r.span (fun ch => !(ch == '"' || jsWhitespace ch))
        if sp.1.isEmpty then extractHttpUrlAux rest
        else some ("http://".toList ++ sp.1)
      | none => extractHttpUrlAux rest

/-- `regex.exec(line)?.[0]` for the URL-extraction regex. -/
def extractHttpUrl (line : String) : Option String :=
  (extractHttpUrlAux line.toList).map String.mk

/-- `line.replace(pat, rep)` for a plain string `pat`: replace the first
(leftmost) occurrence.  (`$`-substitution patterns in `rep` are not
modelled; the replacement strings built here are proxy URLs.) -/
def replaceFirstAux (pat rep : List Char) : List Char → List Char
  | [] => []
  | c :: rest =>
    match stripLit pat (c :: rest) with
    | some r => rep ++ r
    | none => c :: replaceFirstAux pat rep rest

/-- JavaScript `line.replace(pat, rep)` with a string pattern. -/
def jsReplaceFirst (s pat rep : String) : String :=
  String.mk (replaceFirstAux pat.toList rep.toList s.toList)

/-- One line of the master-playlist branch (lines 225–262): a resolver
throw on a variant-URI line aborts with the thrown message. -/
def rewriteMasterLine (resolve : String → Except String String) (base hj : String)
    (line : String) : Except String String :=
  if jsStartsWith line "#" then
    if jsStartsWith line "#EXT-X-KEY:" then
      match extractHttpUrl line with
      | some keyUrl => .ok (jsReplaceFirst line keyUrl (tsProxyUrl base keyUrl hj))
      | none => .ok line
    else if jsStartsWith line "#EXT-X-MEDIA:" then
      match extractHttpUrl line with
      | some mediaUrl => .ok (jsReplaceFirst line mediaUrl (m3u8ProxyUrl base mediaUrl hj))
      | none => .ok line
    else .ok line
  else if jsTrimmedNonempty line then
    match resolve line with
    | .error msg => .error msg
    | .ok variantUrl =>
      if variantUrl == "" then .ok line else .ok (m3u8ProxyUrl base variantUrl hj)
  else .ok line

/-- The master-branch `for` loop: one output line per input line until the
first throwing line, which aborts the whole rewrite. -/
def rewriteMasterLoop (resolve : String → Except String String) (base hj : String) :
    List String → Except String (List String)
  | [] => .ok []
  | l :: ls =>
    match rewriteMasterLine resolve base hj l with
    | .error msg => .error msg
    | .ok l2 =>
      match rewriteMasterLoop resolve base hj ls with
      | .error msg => .error msg
      | .ok ls2 => .ok (l2 :: ls2)

/-- One line of the media-playlist branch (lines 281–315): the rewritten
line, the discovered segment URL pushed onto `segmentUrls` (if any), and
the key URL handed immediately and individually to `prefetchSegment` (if
any; suppressed when the cache is disabled).  A resolver throw on a
segment-URI line aborts with the thrown message. -/
def rewriteMediaLine (resolve : String → Except String String) (cacheDisabled : Bool)
    (base hj : String) (line : String) :
    Except String (String × Option String × Option String) :=
  if jsStartsWith line "#" then
    if jsStartsWith line "#EXT-X-KEY:" then
      match extractHttpUrl line with
      | some keyUrl =>
        .ok (jsReplaceFirst line keyUrl (tsProxyUrl base keyUrl hj), none,
             if cacheDisabled then none else some keyUrl)
      | none => .ok (line, none, none)
    else .ok (line, none, none)
  else if jsTrimmedNonempty line then
    match resolve line with
    | .error msg => .error msg
    | .ok segmentUrl =>
      if segmentUrl == "" then .ok (line, none, none)
      else .ok (tsProxyUrl base segmentUrl hj, some segmentUrl, none)
  else .ok (line, none, none)

/-- Outcome of the media-branch `for` loop.  `result` is the rewritten
lines, or the thrown message when some line's URL construction threw;
`segmentUrls` and `keyPrefetches` are the contents of the local
`segmentUrls` array and the `prefetchSegment` calls actually issued before
the loop ended (a throw stops both). -/
structure MediaRewriteOutcome where
  result : Except String (List String)
  segmentUrls : List String
  keyPrefetches : List String

/-- The media-branch `for` loop over all lines. -/
def rewriteMediaLoop (resolve : String → Except String String) (cacheDisabled : Bool)
    (base hj : String) : List String → MediaRewriteOutcome
  | [] => ⟨.ok [], [], []⟩
  | l :: ls =>
    match rewriteMediaLine resolve cacheDisabled base hj l with
    | .error msg => ⟨.error msg, [], []⟩
    | .ok lsk =>
      let rest := rewriteMediaLoop resolve cacheDisabled base hj ls
      ⟨match rest.result with
        | .error msg => .error msg
        | .ok ls2 => .ok (lsk.1 :: ls2),
       lsk.2.1.toList ++ rest.segmentUrls,
       lsk.2.2.toList ++ rest.keyPrefetches⟩

/-!
## The `/m3u8-proxy` (and `/cache-stats`) event handler

`getQuery` values are `Option String` (`none` = absent); JS falsiness makes
the empty string behave like an absent parameter.  The origin `fetch` is an
oracle: `.error msg` models a thrown transport error with message `msg`,
`.ok r` a settled response.  Prefetching is fire-and-forget: the rewriter's
hand-offs to `prefetchSegment` are recorded as data
(`segmentUrls`/`keyPrefetches`/`batchStarted`), and only the synchronous
`cleanupCache()` call of the batch path is folded into the returned map.
-/

/-- An origin manifest fetch outcome. -/
structure FetchReply where
  ok : Bool
  status : Nat
  statusText : String
  body : String
deriving DecidableEq

/-- What a request to the `m3u8-proxy`/`cache-stats` handler can produce. -/
inductive ProxyResponse where
  | err (statusCode : Nat) (statusMessage : String) : ProxyResponse
  | manifest (text : String) : ProxyResponse
  | stats (s : CacheStatsData) : ProxyResponse
  | cors : ProxyResponse
deriving DecidableEq

/-- Everything observable about one `proxyM3U8(event)` run. -/
structure ProxyM3U8Result where
  response : ProxyResponse
  originFetch : Option (String × List (String × JsonValue))
  segmentUrls : List String
  keyPrefetches : List String
  batchStarted : Bool

/-- `proxyM3U8(event)` (lines 177–352).  A per-line `new URL` throw inside
either rewrite loop reaches the outer catch and is answered as a `500`
whose message is the thrown error's message (`error.message || ...`). -/
def proxyM3U8 (newURL2 : String → String → Except String String)
    (fetchRes : Except String FetchReply) (cacheDisabled : Bool)
    (urlParam headersParam : Option String) (host proto : String) :
    ProxyM3U8Result :=
  let noFetch : ProxyResponse → ProxyM3U8Result := fun r =>
    ⟨r, none, [], [], false⟩
  match urlParam with
  | none => noFetch (.err 400 "URL parameter is required")
  | some url =>
    if url == "" then noFetch (.err 400 "URL parameter is required")
    else
      let headersOpt : Option JsonValue :=
        match headersParam with
        | none => some (.obj [])
        | some hp => if hp == "" then some (.obj []) else jsonParse hp
      match headersOpt with
      | none => noFetch (.err 400 "Invalid headers format")
      | some headers =>
        let fetchHeaders := mergedFetchHeaders headers
        match fetchRes with
        | .error msg =>
          ⟨.err 500 (if msg == "" then "Error proxying M3U8 file" else msg),
           some (url, fetchHeaders), [], [], false⟩
        | .ok r =>
          if !r.ok then
            ⟨.err 500 ("Failed to fetch M3U8: " ++ toString r.status ++ " " ++ r.statusText),
             some (url, fetchHeaders), [], [], false⟩
          else
            let baseProxyUrl := proto ++ "://" ++ host
            let hj := jsonStringify headers
            let resolve := fun line => newURL2 line url
            if jsIncludes r.body "RESOLUTION=" then
              match rewriteMasterLoop resolve baseProxyUrl hj (jsSplit r.body "\n") with
              | .error msg =>
                ⟨.err 500 (if msg == "" then "Error proxying M3U8 file" else msg),
                 some (url, fetchHeaders), [], [], false⟩
              | .ok newLines =>
                ⟨.manifest (String.intercalate "\n" newLines),
                 some (url, fetchHeaders), [], [], false⟩
            else
              let mr := rewriteMediaLoop resolve cacheDisabled baseProxyUrl hj
                  (jsSplit r.body "\n")
              match mr.result with
              | .error msg =>
                ⟨.err 500 (if msg == "" then "Error proxying M3U8 file" else msg),
                 some (url, fetchHeaders), mr.segmentUrls, mr.keyPrefetches, false⟩
              | .ok newLines =>
                ⟨.manifest (String.intercalate "\n" newLines),
                 some (url, fetchHeaders), mr.segmentUrls, mr.keyPrefetches,
                 !mr.segmentUrls.isEmpty && !cacheDisabled⟩

/-- The default event handler of `src/routes/m3u8-proxy.ts` (lines 363–379):
CORS preflight, the `DISABLE_M3U8` gate, the `/cache-stats` dispatch, then
`proxyM3U8`.  Returns the response together with the segment cache after the
handler's synchronous cache work. -/
def m3u8Route (disableM3U8 preflight : Bool) (path : String) (now : Int) (cache : Cache)
    (newURL2 : String → String → Except String String) (fetchRes : Except String FetchReply)
    (cacheDisabled : Bool) (urlParam headersParam : Option String)
    (host proto : String) : ProxyResponse × Cache :=
  if preflight then (.cors, cache)
  else if disableM3U8 then (.err 404 "M3U8 proxying is disabled", cache)
  else if path == "/cache-stats" then
    let sc := handleCacheStats now cache
    (.stats sc.1, sc.2)
  else
    let pr := proxyM3U8 newURL2 fetchRes cacheDisabled urlParam headersParam host proto
    (pr.response, if pr.batchStarted then cleanupCache now cache else cache)

/-!
## The `/ts-proxy` event handler (`src/routes/ts-proxy.ts`)
-/

/-- An origin segment fetch outcome. -/
structure TsFetchReply where
  ok : Bool
  status : Nat
  statusText : String
  data : List Nat
deriving DecidableEq

/-- What a request to the `ts-proxy` handler can produce. -/
inductive TsResponse where
  | err (statusCode : Nat) (statusMessage : String) : TsResponse
  | body (data : List Nat) (contentType : String) (cacheControl : String) : TsResponse
  | cors : TsResponse
deriving DecidableEq

/-- Everything observable about one `ts-proxy` request. -/
structure TsResult where
  response : TsResponse
  cache : Cache
  originFetch : Option (String × List (String × JsonValue))

/-- Exact-key lookup in a cached header snapshot (`entry.headers['content-type']`). -/
def headerLookup (hs : List (String × String)) (k : String) : Option String :=
  (hs.find? (fun p => p.1 == k)).map (fun p => p.2)

/-- The default event handler of `src/routes/ts-proxy.ts` (lines 7–86). -/
def tsProxyRoute (disableM3U8 cacheDisabled preflight : Bool) (now : Int) (cache : Cache)
    (urlParam headersParam : Option String)
    (fetchRes : Except String TsFetchReply) : TsResult :=
  if preflight then ⟨.cors, cache, none⟩
  else if disableM3U8 then ⟨.err 404 "TS proxying is disabled", cache, none⟩
  else
    match urlParam with
    | none => ⟨.err 400 "URL parameter is required", cache, none⟩
    | some url =>
      if url == "" then ⟨.err 400 "URL parameter is required", cache, none⟩
      else
        let headersOpt : Option JsonValue :=
          match headersParam with
          | none => some (.obj [])
          | some hp => if hp == "" then some (.obj []) else jsonParse hp
        match headersOpt with
        | none => ⟨.err 400 "Invalid headers format", cache, none⟩
        | some headers =>
          let lookup :=
            if cacheDisabled then ((none : Option CacheEntry), cache)
            else getCachedSegment cacheDisabled now url cache
          match lookup with
          | (some entry, cache2) =>
            let ct := match headerLookup entry.headers "content-type" with
              | some v => if v == "" then "video/mp2t" else v
              | none => "video/mp2t"
            ⟨.body entry.data ct "public, max-age=3600", cache2, none⟩
          | (none, cache2) =>
            let fh := mergedFetchHeaders headers
            match fetchRes with
            | .error msg =>
              ⟨.err 500 (if msg == "" then "Error proxying TS file" else msg),
               cache2, some (url, fh)⟩
            | .ok r =>
              if !r.ok then
                ⟨.err 500 ("Failed to fetch TS file: " ++ toString r.status ++ " " ++ r.statusText),
                 cache2, some (url, fh)⟩
              else
                ⟨.body r.data "video/mp2t" "public, max-age=3600", cache2, some (url, fh)⟩

/-!
## Theorems
-/

theorem jsTrimmedNonempty_of_startsHash {l : String} (h : jsStartsWith l "#" = true) :
    jsTrimmedNonempty l = true := by
  unfold jsStartsWith at h
  unfold jsTrimmedNonempty
  have h8 : "#".toList = ['#'] := rfl
  rw [h8] at h
  cases hl : l.toList with
  | nil => rw [hl] at h; simp [List.isPrefixOf] at h
  | cons c t =>
    rw [hl] at h
    simp [List.isPrefixOf] at h
    subst h
    simp [List.any_cons]
    left
    decide

/-- Stand-in for `parseURL(line, url)` with a truthy base, i.e.
`new URL(line, url).href` against the base `http://cdn/a/m.m3u8`: the
WHATWG constructor throws a `TypeError` ("Invalid URL") when the line is an
absolute URL reference whose host contains a space (a forbidden host code
point), and otherwise resolves the relative reference against the base. -/
def resolveWithBaseStub : String → Except String String :=
  fun l =>
    if jsStartsWith l "http://" && l.toList.contains ' ' then .error "Invalid URL"
    else .ok ("http://cdn/a/" ++ l)

theorem rewriteMediaLoop_ok_shape (resolve : String → Except String String)
    (cd : Bool) (base hj : String) :
    ∀ (lines out : List String),
      (rewriteMediaLoop resolve cd base hj lines).result = .ok out →
      out.length = lines.length ∧
      ∀ (i : Nat) (l : String), lines[i]? = some l →
        ∃ res, rewriteMediaLine resolve cd base hj l = .ok res ∧ out[i]? = some res.1 := by
  intro lines
  induction lines with
  | nil =>
    intro out hok
    have hout : ([] : List String) = out := Except.ok.inj hok
    subst hout
    exact ⟨rfl, fun i l hl => by simp at hl⟩
  | cons l ls ih =>
    intro out hok
    cases hline : rewriteMediaLine resolve cd base hj l with
    | error msg => simp [rewriteMediaLoop, hline] at hok
    | ok lsk =>
      simp only [rewriteMediaLoop, hline] at hok
      cases hpre : (rewriteMediaLoop resolve cd base hj ls).result with
      | error msg => rw [hpre] at hok; simp at hok
      | ok out2 =>
        rw [hpre] at hok
        have hout : lsk.1 :: out2 = out := Except.ok.inj hok
        subst hout
        obtain ⟨hlen, hidx⟩ := ih out2 hpre
        refine ⟨by simp [hlen], ?_⟩
        intro i l2 hl2
        cases i with
        | zero =>
          have : l = l2 := by simpa using hl2
          subst this
          exact ⟨lsk, hline, by simp⟩
        | succ n =>
          have hl3 : ls[n]? = some l2 := by simpa using hl2
          obtain ⟨res, hres, ho⟩ := hidx n l2 hl3
          exact ⟨res, hres, by simpa using ho⟩

/-- C1 counterexample: a media manifest containing the line
`http://a b/seg.ts` — on which the `new URL` constructor throws — is not
rewritten at all: the throw escapes the loop (there is no per-line catch)
and `proxyM3U8` answers `500 Invalid URL` with no manifest output, so line
count is not preserved and no line appears byte-identical; the claim's
unconditional output-shape statements fail on this manifest. -/
theorem c1_counterexample_throwing_line_aborts :
    resolveWithBaseStub "http://a b/seg.ts" = .error "Invalid URL" ∧
    (proxyM3U8 (fun line _ => resolveWithBaseStub line)
        (.ok ⟨true, 200, "OK", "#EXTM3U\nhttp://a b/seg.ts"⟩) false
        (some "http://cdn/a/m.m3u8") none "h" "http").response
      = .err 500 "Invalid URL" ∧
    ∀ text, (proxyM3U8 (fun line _ => resolveWithBaseStub line)
        (.ok ⟨true, 200, "OK", "#EXTM3U\nhttp://a b/seg.ts"⟩) false
        (some "http://cdn/a/m.m3u8") none "h" "http").response ≠ .manifest text :=
  ⟨rfl, rfl, fun _ h => ProxyResponse.noConfusion h⟩

/-- C1 (amended): whenever the media-playlist rewrite completes — no line's
URL construction throws — it maps lines one-to-one in order (line count and
relative order preserved); blank lines and directive lines other than key
directives come out byte-identical; and a non-blank, non-directive line
whose URI the Resolver resolves to a (truthy) href becomes the
segment-proxy URL
`{base}/ts-proxy?url=<encodeURIComponent(resolved)>&headers=<encodeURIComponent(JSON.stringify(headers))>`.
A line on which the constructor throws instead aborts the whole rewrite to
a `500` with no output (see the counterexample). -/
theorem c1_media_rewrite_shape (resolve : String → Except String String)
    (cacheDisabled : Bool) (base : String) (headers : JsonValue)
    (lines out : List String)
    (hok : (rewriteMediaLoop resolve cacheDisabled base (jsonStringify headers)
        lines).result = .ok out) :
    out.length = lines.length ∧
    ∀ (i : Nat) (l : String), lines[i]? = some l →
      ((jsTrimmedNonempty l = false → out[i]? = some l) ∧
       (jsStartsWith l "#" = true → jsStartsWith l "#EXT-X-KEY:" = false →
        out[i]? = some l) ∧
       (jsStartsWith l "#" = false → jsTrimmedNonempty l = true →
        ∀ u, resolve l = .ok u → u ≠ "" →
        out[i]? = some (tsProxyUrl base u (jsonStringify headers)))) := by
  obtain ⟨hlen, hidx⟩ := rewriteMediaLoop_ok_shape resolve cacheDisabled base
    (jsonStringify headers) lines out hok
  refine ⟨hlen, ?_⟩
  intro i l hl
  obtain ⟨res, hres, hout⟩ := hidx i l hl
  refine ⟨?_, ?_, ?_⟩
  · intro hblank
    have hhash : jsStartsWith l "#" = false := by
      cases hh : jsStartsWith l "#" with
      | false => rfl
      | true => rw [jsTrimmedNonempty_of_startsHash hh] at hblank; cases hblank
    rw [rewriteMediaLine, hhash, hblank] at hres
    simp only [Bool.false_eq_true, if_false] at hres
    have : (l, (none : Option String), (none : Option String)) = res :=
      Except.ok.inj hres
    rw [hout, ← this]
  · intro hhash hkey
    rw [rewriteMediaLine, hhash, hkey] at hres
    simp only [if_true, Bool.false_eq_true, if_false] at hres
    have : (l, (none : Option String), (none : Option String)) = res :=
      Except.ok.inj hres
    rw [hout, ← this]
  · intro hhash htrim u hu hune
    rw [rewriteMediaLine, hhash, htrim, hu] at hres
    simp only [Bool.false_eq_true, if_false, if_true,
      beq_eq_false_iff_ne.mpr hune] at hres
    have : (tsProxyUrl base u (jsonStringify headers), some u, (none : Option String))
        = res := Except.ok.inj hres
    rw [hout, ← this]

theorem c1_media_rewrite_shape_witness :
    (rewriteMediaLoop (fun l => .ok ("http://cdn/a/" ++ l)) false "http://p"
        (jsonStringify (.obj [])) ["#EXTM3U", "#EXT-X-TARGETDURATION:10", "", "seg1.ts"]).result
      = .ok ["#EXTM3U", "#EXT-X-TARGETDURATION:10", "",
          tsProxyUrl "http://p" "http://cdn/a/seg1.ts" (jsonStringify (.obj []))] ∧
    (["#EXTM3U", "#EXT-X-TARGETDURATION:10", "",
        tsProxyUrl "http://p" "http://cdn/a/seg1.ts" (jsonStringify (.obj []))] : List String)[3]?
      = some (tsProxyUrl "http://p" "http://cdn/a/seg1.ts" (jsonStringify (.obj []))) :=
  ⟨rfl,
   ((c1_media_rewrite_shape (fun l => .ok ("http://cdn/a/" ++ l)) false "http://p"
       (.obj []) ["#EXTM3U", "#EXT-X-TARGETDURATION:10", "", "seg1.ts"]
       ["#EXTM3U", "#EXT-X-TARGETDURATION:10", "",
        tsProxyUrl "http://p" "http://cdn/a/seg1.ts" (jsonStringify (.obj []))]
       rfl).2 3 "seg1.ts" rfl).2.2 rfl rfl "http://cdn/a/seg1.ts" rfl (by decide)⟩

/-- C2: with the origin fetch settled successfully, `proxyM3U8` takes the
master-playlist branch iff the raw manifest text contains the substring
`RESOLUTION=`, and otherwise the media-playlist branch — regardless of any
key or alternate-media directives in the text.  The response is exactly the
selected branch's outcome: the joined rewritten manifest, or a `500`
carrying the thrown message when some line's URL construction throws. -/
theorem c2_classification_by_resolution_marker
    (newURL2 : String → String → Except String String) (cacheDisabled : Bool)
    (url hp : String) (hurl : url ≠ "") (headers : JsonValue)
    (hhp : (if hp == "" then some (JsonValue.obj []) else jsonParse hp) = some headers)
    (r : FetchReply) (hok : r.ok = true) (host proto : String) :
    (jsIncludes r.body "RESOLUTION=" = true →
      (proxyM3U8 newURL2 (.ok r) cacheDisabled (some url) (some hp) host proto).response
        = match rewriteMasterLoop (fun line => newURL2 line url) (proto ++ "://" ++ host)
              (jsonStringify headers) (jsSplit r.body "\n") with
          | .error msg => .err 500 (if msg == "" then "Error proxying M3U8 file" else msg)
          | .ok newLines => .manifest (String.intercalate "\n" newLines)) ∧
    (jsIncludes r.body "RESOLUTION=" = false →
      (proxyM3U8 newURL2 (.ok r) cacheDisabled (some url) (some hp) host proto).response
        = match (rewriteMediaLoop (fun line => newURL2 line url) cacheDisabled
              (proto ++ "://" ++ host) (jsonStringify headers)
              (jsSplit r.body "\n")).result with
          | .error msg => .err 500 (if msg == "" then "Error proxying M3U8 file" else msg)
          | .ok newLines => .manifest (String.intercalate "\n" newLines)) := by
  have h1 : (url == "") = false := beq_eq_false_iff_ne.mpr hurl
  simp only [beq_iff_eq] at hhp
  constructor <;> intro hm
  · cases hres : rewriteMasterLoop (fun line => newURL2 line url) (proto ++ "://" ++ host)
        (jsonStringify headers) (jsSplit r.body "\n") <;>
      simp [proxyM3U8, h1, hhp, hok, hm, hres]
  · cases hres : (rewriteMediaLoop (fun line => newURL2 line url) cacheDisabled
        (proto ++ "://" ++ host) (jsonStringify headers) (jsSplit r.body "\n")).result <;>
      simp [proxyM3U8, h1, hhp, hok, hm, hres]

theorem c2_classification_witness :
    (proxyM3U8 (fun rel _ => .ok rel)
        (.ok ⟨true, 200, "OK", "#EXTM3U\n#EXT-X-KEY:METHOD=NONE\nseg.ts"⟩) false
        (some "http://o/m.m3u8") (some "\x7b\x7d") "h" "http").response
      = match (rewriteMediaLoop (fun line => .ok line) false "http://h"
            (jsonStringify (.obj []))
            (jsSplit "#EXTM3U\n#EXT-X-KEY:METHOD=NONE\nseg.ts" "\n")).result with
        | .error msg => .err 500 (if msg == "" then "Error proxying M3U8 file" else msg)
        | .ok newLines => .manifest (String.intercalate "\n" newLines) :=
  (c2_classification_by_resolution_marker (fun rel _ => .ok rel) false
      "http://o/m.m3u8" "\x7b\x7d" (by decide) (.obj []) rfl
      ⟨true, 200, "OK", "#EXTM3U\n#EXT-X-KEY:METHOD=NONE\nseg.ts"⟩ rfl "h" "http").2
    (by decide)

/-- C5 counterexample: with `DISABLE_M3U8=true` the handler answers the
`/cache-stats` path with a `404` failure (the disabled gate runs before the
path dispatch), contradicting "the response is a 200 success … the endpoint
has no failure outcome" under every configuration state. -/
theorem c5_counterexample_disabled_gate :
    (m3u8Route true false "/cache-stats" 0 [] (fun _ _ => .error "") (.error "") false
        none none "h" "http").1 = .err 404 "M3U8 proxying is disabled" ∧
    ∀ s : CacheStatsData,
      (m3u8Route true false "/cache-stats" 0 [] (fun _ _ => .error "") (.error "") false
          none none "h" "http").1 ≠ .stats s :=
  ⟨rfl, fun _ h => ProxyResponse.noConfusion h⟩

/-- C5 (amended): when M3U8 proxying is not disabled (and the request is not
a CORS preflight), every `/cache-stats` request — under every cache state
and remaining configuration — succeeds with the JSON stats object of the
freshly cleaned cache; no failure outcome exists on this path. -/
theorem c5_cache_stats_success (now : Int) (cache : Cache)
    (newURL2 : String → String → Except String String)
    (fetchRes : Except String FetchReply)
    (cacheDisabled : Bool) (urlParam headersParam : Option String)
    (host proto : String) :
    m3u8Route false false "/cache-stats" now cache newURL2 fetchRes cacheDisabled
        urlParam headersParam host proto
      = (.stats (getCacheStats (cleanupCache now cache)), cleanupCache now cache) := rfl

/-- C6 (code bug): the claim — and the spec's "resolution failure …
recovered locally by leaving the original line unrewritten; not an error to
the caller" — match the intent visible in the code's own
`else { newLines.push(line); }` branches (`m3u8-proxy.ts` 256–257 and
308–309), but with a truthy base `parseURL` is `new URL(line, url).href`
with no try/catch (lines 6–9), so its only failure mode is a thrown
`TypeError` that reaches `proxyM3U8`'s outer catch: the request is answered
`500` with no manifest, and the passthrough branches are unreachable (a
successful construction's `href` is never falsy).  This theorem evaluates
the code at the failing input — a master playlist whose variant line names
a host containing a forbidden code point — exhibiting the surfaced error. -/
theorem c6_resolution_throw_surfaces_500 :
    resolveWithBaseStub "http://a b/hi.m3u8" = .error "Invalid URL" ∧
    (proxyM3U8 (fun line _ => resolveWithBaseStub line)
        (.ok ⟨true, 200, "OK",
          "#EXT-X-STREAM-INF:RESOLUTION=1920x1080\nhttp://a b/hi.m3u8"⟩) false
        (some "http://cdn/a/master.m3u8") none "h" "http").response
      = .err 500 "Invalid URL" ∧
    ∀ text, (proxyM3U8 (fun line _ => resolveWithBaseStub line)
        (.ok ⟨true, 200, "OK",
          "#EXT-X-STREAM-INF:RESOLUTION=1920x1080\nhttp://a b/hi.m3u8"⟩) false
        (some "http://cdn/a/master.m3u8") none "h" "http").response ≠ .manifest text :=
  ⟨rfl, rfl, fun _ h => ProxyResponse.noConfusion h⟩

/-- C8 counterexample: for the media playlist consisting of the single key
directive `#EXT-X-KEY:METHOD=AES-128,URI="http://k/key"`, the URL
`http://k/key` is extracted, yet the discovered-segment list handed to the
batch prefetch is empty — the key URL goes to the immediate individual
prefetch channel instead, so it is not "registered as a discovered segment
URL" as the claim states. -/
theorem c8_counterexample_key_not_batched :
    extractHttpUrl "#EXT-X-KEY:METHOD=AES-128,URI=\"http://k/key\"" = some "http://k/key" ∧
    (rewriteMediaLoop (fun l => .ok l) false "http://p" "\x7b\x7d"
        ["#EXT-X-KEY:METHOD=AES-128,URI=\"http://k/key\""]).segmentUrls = [] ∧
    (rewriteMediaLoop (fun l => .ok l) false "http://p" "\x7b\x7d"
        ["#EXT-X-KEY:METHOD=AES-128,URI=\"http://k/key\""]).keyPrefetches
      = ["http://k/key"] :=
  ⟨rfl, rfl, rfl⟩

theorem rewriteMediaLine_channels (resolve : String → Except String String)
    (base hj : String) (l : String) :
    (match rewriteMediaLine resolve false base hj l with
     | .ok lsk => lsk.2.2
     | .error _ => none)
      = (if jsStartsWith l "#" then
          (if jsStartsWith l "#EXT-X-KEY:" then extractHttpUrl l else none) else none) ∧
    (match rewriteMediaLine resolve false base hj l with
     | .ok lsk => lsk.2.1
     | .error _ => none)
      = (if jsStartsWith l "#" then none
        else if jsTrimmedNonempty l then
          (match resolve l with
           | .ok u => if u == "" then none else some u
           | .error _ => none)
        else none) := by
  rw [rewriteMediaLine]
  cases h1 : jsStartsWith l "#"
  · cases h2 : jsTrimmedNonempty l
    · simp [h1, h2]
    · cases h3 : resolve l
      · simp [h1, h2, h3]
      · rename_i u
        cases h4 : (u == "") <;> simp [h1, h2, h3, h4]
  · cases h2 : jsStartsWith l "#EXT-X-KEY:"
    · simp [h1, h2]
    · cases h3 : extractHttpUrl l <;> simp [h1, h2, h3]

theorem rewriteMediaLoop_ok_channels (resolve : String → Except String String)
    (base hj : String) :
    ∀ (lines out : List String),
      (rewriteMediaLoop resolve false base hj lines).result = .ok out →
      (rewriteMediaLoop resolve false base hj lines).keyPrefetches
        = lines.filterMap (fun l =>
            if jsStartsWith l "#" then
              (if jsStartsWith l "#EXT-X-KEY:" then extractHttpUrl l else none)
            else none) ∧
      (rewriteMediaLoop resolve false base hj lines).segmentUrls
        = lines.filterMap (fun l =>
            if jsStartsWith l "#" then none
            else if jsTrimmedNonempty l then
              (match resolve l with
               | .ok u => if u == "" then none else some u
               | .error _ => none)
            else none) := by
  intro lines
  induction lines with
  | nil => intro out _; exact ⟨rfl, rfl⟩
  | cons l ls ih =>
    intro out hok
    cases hline : rewriteMediaLine resolve false base hj l with
    | error msg => simp [rewriteMediaLoop, hline] at hok
    | ok lsk =>
      simp only [rewriteMediaLoop, hline] at hok ⊢
      cases hpre : (rewriteMediaLoop resolve false base hj ls).result with
      | error msg => rw [hpre] at hok; simp at hok
      | ok out2 =>
        obtain ⟨ih1, ih2⟩ := ih out2 hpre
        have hk := (rewriteMediaLine_channels resolve base hj l).1
        have hs := (rewriteMediaLine_channels resolve base hj l).2
        rw [hline] at hk hs
        rw [List.filterMap_cons, List.filterMap_cons, ← hk, ← hs]
        constructor
        · cases hkk : lsk.2.2 <;> simp [hkk, ih1]
        · cases hss : lsk.2.1 <;> simp [hss, ih2]

theorem rewriteMediaLoop_append (resolve : String → Except String String)
    (cd : Bool) (base hj : String) :
    ∀ (pre rest : List String) (out : List String),
      (rewriteMediaLoop resolve cd base hj pre).result = .ok out →
      ((rewriteMediaLoop resolve cd base hj (pre ++ rest)).result
          = match (rewriteMediaLoop resolve cd base hj rest).result with
            | .error msg => .error msg
            | .ok ls2 => .ok (out ++ ls2)) ∧
      (rewriteMediaLoop resolve cd base hj (pre ++ rest)).keyPrefetches
        = (rewriteMediaLoop resolve cd base hj pre).keyPrefetches
            ++ (rewriteMediaLoop resolve cd base hj rest).keyPrefetches ∧
      (rewriteMediaLoop resolve cd base hj (pre ++ rest)).segmentUrls
        = (rewriteMediaLoop resolve cd base hj pre).segmentUrls
            ++ (rewriteMediaLoop resolve cd base hj rest).segmentUrls := by
  intro pre
  induction pre with
  | nil =>
    intro rest out hok
    have hout : ([] : List String) = out := Except.ok.inj hok
    subst hout
    refine ⟨?_, by simp [rewriteMediaLoop], by simp [rewriteMediaLoop]⟩
    cases hres : (rewriteMediaLoop resolve cd base hj rest).result <;> simp [hres]
  | cons l pre2 ih =>
    intro rest out hok
    cases hline : rewriteMediaLine resolve cd base hj l with
    | error msg => simp [rewriteMediaLoop, hline] at hok
    | ok lsk =>
      simp only [rewriteMediaLoop, hline] at hok
      cases hpre : (rewriteMediaLoop resolve cd base hj pre2).result with
      | error msg => rw [hpre] at hok; simp at hok
      | ok out2 =>
        rw [hpre] at hok
        have hout : lsk.1 :: out2 = out := Except.ok.inj hok
        subst hout
        obtain ⟨ihr, ihk, ihs⟩ := ih rest out2 hpre
        refine ⟨?_, ?_, ?_⟩
        · show (rewriteMediaLoop resolve cd base hj (l :: (pre2 ++ rest))).result = _
          simp only [rewriteMediaLoop, hline]
          rw [ihr]
          cases hres : (rewriteMediaLoop resolve cd base hj rest).result <;> simp [hres]
        · show (rewriteMediaLoop resolve cd base hj (l :: (pre2 ++ rest))).keyPrefetches = _
          simp only [rewriteMediaLoop, hline]
          rw [ihk]
          simp [List.append_assoc]
        · show (rewriteMediaLoop resolve cd base hj (l :: (pre2 ++ rest))).segmentUrls = _
          simp only [rewriteMediaLoop, hline]
          rw [ihs]
          simp [List.append_assoc]

theorem rewriteMediaLoop_abort_head (resolve : String → Except String String)
    (cd : Bool) (base hj : String) (bad : String) (post : List String) (msg : String)
    (hhash : jsStartsWith bad "#" = false) (htrim : jsTrimmedNonempty bad = true)
    (herr : resolve bad = .error msg) :
    rewriteMediaLoop resolve cd base hj (bad :: post) = ⟨.error msg, [], []⟩ := by
  have hline : rewriteMediaLine resolve cd base hj bad = .error msg := by
    rw [rewriteMediaLine, hhash, htrim, herr]
    simp
  simp [rewriteMediaLoop, hline]

/-- C8 (amended): in media-playlist rewriting, a key-directive line's
extracted URL goes to the immediate individual prefetch channel (one
un-awaited `prefetchSegment` call as the line is processed), never to the
discovered-segment list.  When the rewrite completes without a resolver
throw, the discovered segment URLs — exactly the truthy resolutions of
non-blank non-directive lines — are handed to the Prefetcher together as
one batch, launched (not awaited) iff that list is non-empty.  A mid-loop
constructor throw aborts processing: key prefetches of lines after the
throwing line are never issued, and the batch never launches. -/
theorem c8_prefetch_channels (resolve : String → Except String String)
    (base hj : String) :
    (∀ (lines out : List String),
      (rewriteMediaLoop resolve false base hj lines).result = .ok out →
      (rewriteMediaLoop resolve false base hj lines).keyPrefetches
        = lines.filterMap (fun l =>
            if jsStartsWith l "#" then
              (if jsStartsWith l "#EXT-X-KEY:" then extractHttpUrl l else none)
            else none) ∧
      (rewriteMediaLoop resolve false base hj lines).segmentUrls
        = lines.filterMap (fun l =>
            if jsStartsWith l "#" then none
            else if jsTrimmedNonempty l then
              (match resolve l with
               | .ok u => if u == "" then none else some u
               | .error _ => none)
            else none)) ∧
    (∀ (pre post : List String) (bad : String) (preOut : List String) (msg : String),
      (rewriteMediaLoop resolve false base hj pre).result = .ok preOut →
      jsStartsWith bad "#" = false → jsTrimmedNonempty bad = true →
      resolve bad = .error msg →
      (rewriteMediaLoop resolve false base hj (pre ++ bad :: post)).result = .error msg ∧
      (rewriteMediaLoop resolve false base hj (pre ++ bad :: post)).keyPrefetches
        = (rewriteMediaLoop resolve false base hj pre).keyPrefetches) ∧
    (∀ (newURL2 : String → String → Except String String) (url hp : String)
       (headers : JsonValue) (r : FetchReply) (host proto : String),
      url ≠ "" →
      (if hp == "" then some (JsonValue.obj []) else jsonParse hp) = some headers →
      r.ok = true → jsIncludes r.body "RESOLUTION=" = false →
      (proxyM3U8 newURL2 (.ok r) false (some url) (some hp) host proto).keyPrefetches
        = (rewriteMediaLoop (fun line => newURL2 line url) false (proto ++ "://" ++ host)
            (jsonStringify headers) (jsSplit r.body "\n")).keyPrefetches ∧
      (proxyM3U8 newURL2 (.ok r) false (some url) (some hp) host proto).segmentUrls
        = (rewriteMediaLoop (fun line => newURL2 line url) false (proto ++ "://" ++ host)
            (jsonStringify headers) (jsSplit r.body "\n")).segmentUrls ∧
      (proxyM3U8 newURL2 (.ok r) false (some url) (some hp) host proto).batchStarted
        = (match (rewriteMediaLoop (fun line => newURL2 line url) false
              (proto ++ "://" ++ host) (jsonStringify headers)
              (jsSplit r.body "\n")).result with
           | .ok _ => !(rewriteMediaLoop (fun line => newURL2 line url) false
               (proto ++ "://" ++ host) (jsonStringify headers)
               (jsSplit r.body "\n")).segmentUrls.isEmpty
           | .error _ => false)) := by
  refine ⟨rewriteMediaLoop_ok_channels resolve base hj, ?_, ?_⟩
  · intro pre post bad preOut msg hpre hhash htrim herr
    have habort := rewriteMediaLoop_abort_head resolve false base hj bad post msg
      hhash htrim herr
    obtain ⟨h1, h2, _⟩ := rewriteMediaLoop_append resolve false base hj pre
      (bad :: post) preOut hpre
    constructor
    · rw [h1, habort]
    · rw [h2, habort]
      simp
  · intro newURL2 url hp headers r host proto hurl hhp hok hm
    have h1 : (url == "") = false := beq_eq_false_iff_ne.mpr hurl
    simp only [beq_iff_eq] at hhp
    refine ⟨?_, ?_, ?_⟩ <;>
      cases hres : (rewriteMediaLoop (fun line => newURL2 line url) false
          (proto ++ "://" ++ host) (jsonStringify headers)
          (jsSplit r.body "\n")).result <;>
        simp [proxyM3U8, h1, hhp, hok, hm, hres]

theorem c8_prefetch_channels_witness :
    (rewriteMediaLoop (fun _ => .error "Invalid URL") false "http://p" "\x7b\x7d"
        ([] ++ "seg.ts" :: ["#EXT-X-KEY:URI=\"http://k2/key\""])).result
      = .error "Invalid URL" ∧
    (rewriteMediaLoop (fun _ => .error "Invalid URL") false "http://p" "\x7b\x7d"
        ([] ++ "seg.ts" :: ["#EXT-X-KEY:URI=\"http://k2/key\""])).keyPrefetches
      = (rewriteMediaLoop (fun _ => .error "Invalid URL") false "http://p" "\x7b\x7d"
          []).keyPrefetches :=
  (c8_prefetch_channels (fun _ => .error "Invalid URL") "http://p" "\x7b\x7d").2.1
    [] ["#EXT-X-KEY:URI=\"http://k2/key\""] "seg.ts" [] "Invalid URL" rfl
    (by decide) (by decide) rfl

theorem find?_eraseP_eq_none (url : String) :
    ∀ c : Cache, (c.map Prod.fst).Nodup →
      (c.eraseP (fun x => x.1 == url)).find? (fun e => e.1 == url) = none := by
  intro c
  induction c with
  | nil => intro _; rfl
  | cons e t ih =>
    intro hnd
    rw [List.map_cons, List.nodup_cons] at hnd
    cases he : (e.1 == url)
    · rw [List.eraseP_cons_of_neg (by simp [he]), List.find?_cons_of_neg _ (by simp [he])]
      exact ih hnd.2
    · rw [List.eraseP_cons_of_pos (by simp [he])]
      rw [List.find?_eq_none]
      intro x hx
      simp only [beq_iff_eq] at he ⊢
      intro hxk
      exact hnd.1 (he ▸ hxk ▸ List.mem_map_of_mem Prod.fst hx)

/-- C4: with the cache enabled, a lookup of a key bound to entry `p` returns
the stored entry when its age `now - insertedAt` is at most the TTL
(leaving the map untouched), and otherwise deletes the entry as a side
effect of the read and reports a miss, after which the key is no longer
present (lazy expiry). -/
theorem c4_lazy_ttl_expiry (now : Int) (url : String) (c : Cache)
    (p : String × CacheEntry)
    (hnd : (c.map Prod.fst).Nodup)
    (hfind : c.find? (fun e => e.1 == url) = some p) :
    (now - p.2.timestamp ≤ CACHE_EXPIRY_MS →
      getCachedSegment false now url c = (some p.2, c)) ∧
    (now - p.2.timestamp > CACHE_EXPIRY_MS →
      getCachedSegment false now url c = (none, c.eraseP (fun x => x.1 == url)) ∧
      (c.eraseP (fun x => x.1 == url)).find? (fun e => e.1 == url) = none) := by
  constructor
  · intro hfresh
    rw [getCachedSegment]
    simp only [if_neg (Bool.false_ne_true), hfind]
    rw [if_neg (not_lt.mpr hfresh)]
  · intro hexp
    refine ⟨?_, find?_eraseP_eq_none url c hnd⟩
    rw [getCachedSegment]
    simp only [if_neg (Bool.false_ne_true), hfind]
    rw [if_pos hexp]

theorem c4_lazy_ttl_expiry_witness :
    getCachedSegment false 1000 "http://s/1.ts" [("http://s/1.ts", ⟨[7], [], 0⟩)]
      = (some ⟨[7], [], 0⟩, [("http://s/1.ts", ⟨[7], [], 0⟩)]) ∧
    getCachedSegment false (CACHE_EXPIRY_MS + 1) "http://s/1.ts"
        [("http://s/1.ts", ⟨[7], [], 0⟩)]
      = (none, []) :=
  ⟨(c4_lazy_ttl_expiry 1000 "http://s/1.ts" [("http://s/1.ts", ⟨[7], [], 0⟩)]
      ("http://s/1.ts", ⟨[7], [], 0⟩) (by decide) rfl).1 (by decide),
   ((c4_lazy_ttl_expiry (CACHE_EXPIRY_MS + 1) "http://s/1.ts"
      [("http://s/1.ts", ⟨[7], [], 0⟩)]
      ("http://s/1.ts", ⟨[7], [], 0⟩) (by decide) rfl).2 (by decide)).1⟩

theorem getCachedSegment_snd_sublist (cd : Bool) (now : Int) (url : String) (c : Cache) :
    (getCachedSegment cd now url c).2.Sublist c := by
  rw [getCachedSegment]
  split
  · exact List.Sublist.refl c
  · split
    · split
      · exact List.eraseP_sublist c
      · exact List.Sublist.refl c
    · exact List.Sublist.refl c

/-- C9 (amended): the segment server never inserts into the Segment Cache —
after any `ts-proxy` request the cache is a sublist of what it was before
(only the requested key's expired entry can have been lazily removed), and
a miss caused by the key being absent leaves the cache exactly identical,
the origin body being returned directly; only the Prefetcher ever populates
the cache. -/
theorem c9_miss_never_populates (disableM3U8 cacheDisabled preflight : Bool)
    (now : Int) (cache : Cache) (urlParam headersParam : Option String)
    (fetchRes : Except String TsFetchReply) :
    (tsProxyRoute disableM3U8 cacheDisabled preflight now cache urlParam headersParam
        fetchRes).cache.Sublist cache ∧
    (∀ url, urlParam = some url →
      cache.find? (fun e => e.1 == url) = none →
      (tsProxyRoute disableM3U8 cacheDisabled preflight now cache urlParam headersParam
          fetchRes).cache = cache) := by
  have main : ∀ url, urlParam = some url →
      (if cacheDisabled = true then ((none : Option CacheEntry), cache)
        else getCachedSegment cacheDisabled now url cache)
        = ((none : Option CacheEntry), cache) →
      (tsProxyRoute disableM3U8 cacheDisabled preflight now cache urlParam headersParam
          fetchRes).cache = cache := by
    intro url hu hl
    subst hu
    cases preflight with
    | true => rfl
    | false =>
    cases disableM3U8 with
    | true => rfl
    | false =>
    rw [tsProxyRoute.eq_def]
    simp only [Bool.false_eq_true, if_false]
    cases hue : (url == "") with
    | true => simp [hue]
    | false =>
    simp only [hue, Bool.false_eq_true, if_false]
    cases headersParam with
    | none =>
      simp only []
      rw [hl]
      cases fetchRes with
      | error msg => rfl
      | ok r => cases hok : r.ok <;> simp [hok]
    | some hp =>
      cases hpe : (hp == "") with
      | true =>
        simp only [hpe, if_true]
        rw [hl]
        cases fetchRes with
        | error msg => rfl
        | ok r => cases hok : r.ok <;> simp [hok]
      | false =>
        simp only [hpe, Bool.false_eq_true, if_false]
        cases hjp : jsonParse hp with
        | none => rfl
        | some headers =>
          simp only []
          rw [hl]
          cases fetchRes with
          | error msg => rfl
          | ok r => cases hok : r.ok <;> simp [hok]
  constructor
  · cases preflight with
    | true => exact List.Sublist.refl cache
    | false =>
    cases disableM3U8 with
    | true => exact List.Sublist.refl cache
    | false =>
    cases urlParam with
    | none => exact List.Sublist.refl cache
    | some url =>
    cases hue : (url == "") with
    | true =>
      rw [tsProxyRoute.eq_def]
      simp [hue]
    | false =>
    have hsub : (if cacheDisabled = true then ((none : Option CacheEntry), cache)
        else getCachedSegment cacheDisabled now url cache).2.Sublist cache := by
      split
      · exact List.Sublist.refl cache
      · exact getCachedSegment_snd_sublist _ now _ cache
    rcases hl : (if cacheDisabled = true then ((none : Option CacheEntry), cache)
        else getCachedSegment cacheDisabled now url cache) with ⟨o, c2⟩
    have h2 : c2.Sublist cache := by rw [hl] at hsub; exact hsub
    cases headersParam with
    | none =>
      rw [tsProxyRoute.eq_def]
      cases o with
      | some entry => simp [hue, hl]; exact h2
      | none =>
        cases fetchRes with
        | error msg => simp [hue, hl]; exact h2
        | ok r => cases hok : r.ok <;> simp [hue, hl, hok] <;> exact h2
    | some hp =>
      cases hpe : (hp == "") with
      | true =>
        rw [tsProxyRoute.eq_def]
        cases o with
        | some entry => simp [hue, hpe, hl]; exact h2
        | none =>
          cases fetchRes with
          | error msg => simp [hue, hpe, hl]; exact h2
          | ok r => cases hok : r.ok <;> simp [hue, hpe, hl, hok] <;> exact h2
      | false =>
        cases hjp : jsonParse hp with
        | none =>
          rw [tsProxyRoute.eq_def]
          simp [hue, hpe, hjp]
        | some headers =>
          rw [tsProxyRoute.eq_def]
          cases o with
          | some entry => simp [hue, hpe, hjp, hl]; exact h2
          | none =>
            cases fetchRes with
            | error msg => simp [hue, hpe, hjp, hl]; exact h2
            | ok r => cases hok : r.ok <;> simp [hue, hpe, hjp, hl, hok] <;> exact h2
  · intro url hu hmiss
    have hget : getCachedSegment cacheDisabled now url cache
        = ((none : Option CacheEntry), cache) := by
      rw [getCachedSegment]
      split
      · rfl
      · rw [hmiss]
    have hl : (if cacheDisabled = true then ((none : Option CacheEntry), cache)
        else getCachedSegment cacheDisabled now url cache)
        = ((none : Option CacheEntry), cache) := by
      split
      · rfl
      · exact hget
    exact main url hu hl

theorem c9_miss_never_populates_witness :
    (tsProxyRoute false false false 0 [] (some "http://s/1.ts") none
        (.ok ⟨true, 200, "OK", [9]⟩)).cache = [] :=
  (c9_miss_never_populates false false false 0 [] (some "http://s/1.ts") none
      (.ok ⟨true, 200, "OK", [9]⟩)).2 "http://s/1.ts" rfl rfl

/-- C9 counterexample: a request whose key is bound to an expired entry
misses, is served from origin, and leaves a *different* cache — the expired
entry was deleted by the read — contradicting "the cache contents are
identical before and after a cache-miss serve". -/
theorem c9_counterexample_expired_miss_mutates :
    (tsProxyRoute false false false (CACHE_EXPIRY_MS + 1)
        [("http://s/1.ts", ⟨[1], [], 0⟩)] (some "http://s/1.ts") none
        (.ok ⟨true, 200, "OK", [9]⟩)).response
      = .body [9] "video/mp2t" "public, max-age=3600" ∧
    (tsProxyRoute false false false (CACHE_EXPIRY_MS + 1)
        [("http://s/1.ts", ⟨[1], [], 0⟩)] (some "http://s/1.ts") none
        (.ok ⟨true, 200, "OK", [9]⟩)).cache = [] ∧
    (tsProxyRoute false false false (CACHE_EXPIRY_MS + 1)
        [("http://s/1.ts", ⟨[1], [], 0⟩)] (some "http://s/1.ts") none
        (.ok ⟨true, 200, "OK", [9]⟩)).cache
      ≠ [("http://s/1.ts", ⟨[1], [], 0⟩)] :=
  ⟨rfl, rfl, by decide⟩

/-- C10 counterexample: the headers value `"ab"` (a JSON string, not an
object) is accepted — the segment proxy serves the request without a 400 —
but spreading the parsed string into the outgoing header set adds one entry
per character under its index key (`0: "a"`, `1: "b"`), so the request does
*not* behave as if no extra headers had been supplied. -/
theorem c10_counterexample_string_contributes_headers :
    jsonParse "\"ab\"" = some (.str "ab") ∧
    (tsProxyRoute false false false 0 [] (some "http://s/1.ts") (some "\"ab\"")
        (.ok ⟨true, 200, "OK", [9]⟩)).response
      = .body [9] "video/mp2t" "public, max-age=3600" ∧
    (tsProxyRoute false false false 0 [] (some "http://s/1.ts") (some "\"ab\"")
        (.ok ⟨true, 200, "OK", [9]⟩)).originFetch
      = some ("http://s/1.ts",
          [("User-Agent", .str defaultUserAgent), ("0", .str "a"), ("1", .str "b")]) ∧
    mergedFetchHeaders (.str "ab") ≠ mergedFetchHeaders (.obj []) :=
  ⟨rfl, rfl, rfl, fun h => absurd (congrArg List.length h) (by decide)⟩

/-- C10 (amended): every headers query value that parses as JSON — object
or not — is accepted by both endpoints without a 400 validation error;
a parsed `null`, boolean or number contributes no entries to the outgoing
header set (the request behaves exactly as with no extra headers), while a
parsed string contributes one entry per character under its index key. -/
theorem c10_nonobject_headers_accepted (hp : String) (v : JsonValue)
    (hparse : jsonParse hp = some v)
    (url : String) (hurl : url ≠ "") (cacheDisabled : Bool) (now : Int) (cache : Cache)
    (tsFetch : Except String TsFetchReply)
    (newURL2 : String → String → Except String String) (mFetch : Except String FetchReply)
    (host proto : String) :
    (∀ m, (tsProxyRoute false cacheDisabled false now cache (some url) (some hp)
        tsFetch).response ≠ .err 400 m) ∧
    (∀ m, (proxyM3U8 newURL2 mFetch cacheDisabled (some url) (some hp)
        host proto).response ≠ .err 400 m) ∧
    (v = .null → mergedFetchHeaders v = [("User-Agent", .str defaultUserAgent)]) ∧
    (∀ b, v = .bool b → mergedFetchHeaders v = [("User-Agent", .str defaultUserAgent)]) ∧
    (∀ lx, v = .num lx → mergedFetchHeaders v = [("User-Agent", .str defaultUserAgent)]) ∧
    (∀ s, v = .str s → mergedFetchHeaders v
      = ("User-Agent", .str defaultUserAgent)
          :: s.toList.enum.map (fun ic => (toString ic.1, JsonValue.str (String.mk [ic.2])))) := by
  have hue : (url == "") = false := beq_eq_false_iff_ne.mpr hurl
  have hpne : hp ≠ "" := by
    intro he
    rw [he] at hparse
    exact Option.noConfusion hparse
  have hpe : (hp == "") = false := beq_eq_false_iff_ne.mpr hpne
  refine ⟨?_, ?_, ?_, ?_, ?_, ?_⟩
  · rcases hl : (if cacheDisabled = true then ((none : Option CacheEntry), cache)
        else getCachedSegment cacheDisabled now url cache) with ⟨o, c2⟩
    intro m
    rw [tsProxyRoute.eq_def]
    cases o with
    | some entry => simp [hue, hpe, hparse, hl]
    | none =>
      cases tsFetch with
      | error msg => simp [hue, hpe, hparse, hl]
      | ok r => cases hok : r.ok <;> simp [hue, hpe, hparse, hl, hok]
  · intro m
    cases mFetch with
    | error msg => simp [proxyM3U8, hue, hpe, hparse]
    | ok r =>
      cases hok : r.ok with
      | false => simp [proxyM3U8, hue, hpe, hparse, hok]
      | true =>
        cases hm : jsIncludes r.body "RESOLUTION=" with
        | true =>
          cases hres : rewriteMasterLoop (fun line => newURL2 line url)
              (proto ++ "://" ++ host) (jsonStringify v) (jsSplit r.body "\n") <;>
            simp [proxyM3U8, hue, hpe, hparse, hok, hm, hres]
        | false =>
          cases hres : (rewriteMediaLoop (fun line => newURL2 line url) cacheDisabled
              (proto ++ "://" ++ host) (jsonStringify v) (jsSplit r.body "\n")).result <;>
            simp [proxyM3U8, hue, hpe, hparse, hok, hm, hres]
  · intro h; subst h; rfl
  · intro b h; subst h; rfl
  · intro lx h; subst h; rfl
  · intro s h; subst h; rfl

theorem c10_nonobject_headers_witness :
    (∀ m, (tsProxyRoute false false false 0 [] (some "http://s/1.ts") (some "null")
        (.ok ⟨true, 200, "OK", [9]⟩)).response ≠ .err 400 m) ∧
    mergedFetchHeaders .null = [("User-Agent", .str defaultUserAgent)] :=
  ⟨(c10_nonobject_headers_accepted "null" .null rfl "http://s/1.ts" (by decide)
      false 0 [] (.ok ⟨true, 200, "OK", [9]⟩) (fun _ _ => Except.error "") (.error "")
      "h" "http").1,
   (c10_nonobject_headers_accepted "null" .null rfl "http://s/1.ts" (by decide)
      false 0 [] (.ok ⟨true, 200, "OK", [9]⟩) (fun _ _ => Except.error "") (.error "")
      "h" "http").2.2.1 rfl⟩

theorem length_filter_not_eq {α : Type} (p : α → Bool) (l : List α) :
    (l.filter (fun a => !p a)).length = l.length - (l.filter p).length := by
  induction l with
  | nil => rfl
  | cons a t ih =>
    have hle := List.length_filter_le p t
    cases h : p a <;> simp [h, ih] <;> omega

theorem evictOldest_spec (c1 sorted toRemove result : Cache) (n : Nat)
    (hknd : (c1.map Prod.fst).Nodup) (hn : n ≤ c1.length)
    (hsorted : sorted = c1.mergeSort (fun a b => decide (a.2.timestamp ≤ b.2.timestamp)))
    (htr : toRemove = sorted.take n)
    (hres : result = c1.filter (fun e => !toRemove.any (fun r => r.1 == e.1))) :
    result.length = c1.length - n ∧
    ∀ e ∈ c1, e ∉ result → ∀ k ∈ result, e.2.timestamp ≤ k.2.timestamp := by
  set le : (String × CacheEntry) → (String × CacheEntry) → Bool :=
    fun a b => decide (a.2.timestamp ≤ b.2.timestamp) with hle
  set P : (String × CacheEntry) → Bool :=
    fun e => toRemove.any (fun r => r.1 == e.1) with hP
  have hres2 : result = c1.filter (fun e => !P e) := hres
  have hperm : sorted.Perm c1 := hsorted ▸ List.mergeSort_perm c1 le
  have hsl : sorted.length = c1.length := hperm.length_eq
  have hc1nd : c1.Nodup := List.Nodup.of_map _ hknd
  have hsortnd : sorted.Nodup := hperm.symm.nodup hc1nd
  have hinj := List.inj_on_of_nodup_map hknd
  have hsplit : toRemove ++ sorted.drop n = sorted := by rw [htr]; exact List.take_append_drop n sorted
  have hmemTR : ∀ e ∈ c1, (P e = true ↔ e ∈ toRemove) := by
    intro e he
    constructor
    · intro hp
      rcases List.any_eq_true.mp hp with ⟨r, hr, hbeq⟩
      have hre : r.1 = e.1 := beq_iff_eq.mp hbeq
      have hrc1 : r ∈ c1 := hperm.subset (htr ▸ hr |> List.mem_of_mem_take)
      have : r = e := hinj hrc1 he hre
      exact this ▸ hr
    · intro htre
      exact List.any_eq_true.mpr ⟨e, htre, by simp⟩
  have hfilterTR : toRemove.filter P = toRemove := by
    rw [List.filter_eq_self]
    intro a ha
    exact List.any_eq_true.mpr ⟨a, ha, by simp⟩
  have hnd2 : (toRemove ++ sorted.drop n).Nodup := by rw [hsplit]; exact hsortnd
  have hdisj : List.Disjoint toRemove (sorted.drop n) :=
    List.disjoint_of_nodup_append hnd2
  have hfilterRest : (sorted.drop n).filter P = [] := by
    rw [List.filter_eq_nil_iff]
    intro a ha hPa
    have hac1 : a ∈ c1 := hperm.subset ((List.drop_sublist n sorted).subset ha)
    exact hdisj ((hmemTR a hac1).mp hPa) ha
  have hfiltersorted : sorted.filter P = toRemove := by
    calc sorted.filter P = (toRemove ++ sorted.drop n).filter P := by rw [hsplit]
      _ = toRemove.filter P ++ (sorted.drop n).filter P := List.filter_append _ _
      _ = toRemove := by rw [hfilterTR, hfilterRest, List.append_nil]
  have hlenTR : toRemove.length = n := by
    rw [htr, List.length_take]
    omega
  have hlenP : (c1.filter P).length = n := by
    have hp2 : (sorted.filter P).Perm (c1.filter P) := hperm.filter P
    rw [← hp2.length_eq, hfiltersorted, hlenTR]
  have htrans : ∀ a b c2 : String × CacheEntry, le a b → le b c2 → le a c2 := by
    intro a b c2 hab hbc
    simp only [hle, decide_eq_true_eq] at hab hbc ⊢
    exact le_trans hab hbc
  have htotal : ∀ a b : String × CacheEntry, le a b || le b a := by
    intro a b
    simp only [hle, Bool.or_eq_true, decide_eq_true_eq]
    exact le_total a.2.timestamp b.2.timestamp
  have hpw : (c1.mergeSort le).Pairwise (fun a b => le a b) :=
    List.sorted_mergeSort htrans htotal c1
  have hpw2 : (toRemove ++ sorted.drop n).Pairwise (fun a b => le a b) := by
    rw [hsplit, hsorted]; exact hpw
  have hcross : ∀ a ∈ toRemove, ∀ b ∈ sorted.drop n, a.2.timestamp ≤ b.2.timestamp := by
    intro a ha b hb
    have h := (List.pairwise_append.mp hpw2).2.2 a ha b hb
    simpa only [hle, decide_eq_true_eq] using h
  constructor
  · rw [hres2, length_filter_not_eq, hlenP]
  · intro e he hnotin k hk
    rw [hres2] at hk hnotin
    cases hPe : P e with
    | false =>
      exact absurd (List.mem_filter.mpr ⟨he, by rw [hPe]; rfl⟩) hnotin
    | true =>
      have heTR : e ∈ toRemove := (hmemTR e he).mp hPe
      have hkc1 : k ∈ c1 := (List.filter_sublist c1).subset hk
      have hkP : P k = false := by
        have h2 := (List.mem_filter.mp hk).2
        cases h3 : P k
        · rfl
        · rw [h3] at h2; exact absurd h2 (by decide)
      have hksorted : k ∈ sorted := hperm.mem_iff.mpr hkc1
      have hkapp : k ∈ toRemove ++ sorted.drop n := by rw [hsplit]; exact hksorted
      rcases List.mem_append.mp hkapp with h | h
      · rw [(hmemTR k hkc1).mpr h] at hkP; exact absurd hkP (by decide)
      · exact hcross e heTR k h

/-- C3: after one `cleanupCache` pass (the 30-minute Janitor sweep, the
insertion-triggered cleanup in `prefetchSegment`, and the media-branch and
stats-path calls all invoke this same function) the cache holds at most
`CACHE_MAX_SIZE` (2000) entries and retains only entries that survived the
expiry sweep; when the post-expiry size exceeds capacity, exactly
`size - capacity` entries are removed and every removed entry's
`insertedAt` timestamp is at most every retained entry's — the oldest
insertions go first and the retained entries are the most recently
inserted. -/
theorem c3_cleanup_capacity (now : Int) (c : Cache)
    (hnd : (c.map Prod.fst).Nodup) :
    (cleanupCache now c).length ≤ CACHE_MAX_SIZE ∧
    (cleanupCache now c).Sublist (expireSweep now c) ∧
    ((expireSweep now c).length > CACHE_MAX_SIZE →
      (cleanupCache now c).length = CACHE_MAX_SIZE ∧
      ∀ e ∈ expireSweep now c, e ∉ cleanupCache now c →
        ∀ k ∈ cleanupCache now c, e.2.timestamp ≤ k.2.timestamp) := by
  have hknd : ((expireSweep now c).map Prod.fst).Nodup :=
    List.Nodup.sublist (List.Sublist.map Prod.fst (List.filter_sublist c)) hnd
  by_cases hlen : (expireSweep now c).length > CACHE_MAX_SIZE
  · have hcl : cleanupCache now c
        = (expireSweep now c).filter (fun e =>
            !(((expireSweep now c).mergeSort
                (fun a b => decide (a.2.timestamp ≤ b.2.timestamp))).take
              ((expireSweep now c).length - CACHE_MAX_SIZE)).any
              (fun r => r.1 == e.1)) := by
      simp only [cleanupCache]
      rw [if_pos hlen]
    have hspec := evictOldest_spec (expireSweep now c) _ _ _
        ((expireSweep now c).length - CACHE_MAX_SIZE) hknd (by omega) rfl rfl rfl
    refine ⟨?_, ?_, fun _ => ⟨?_, ?_⟩⟩
    · rw [hcl, hspec.1]; omega
    · rw [hcl]; exact List.filter_sublist _
    · rw [hcl, hspec.1]; omega
    · intro e he hnot k hk
      rw [hcl] at hnot hk
      exact hspec.2 e he hnot k hk
  · have hcl : cleanupCache now c = expireSweep now c := by
      simp only [cleanupCache]
      rw [if_neg hlen]
    exact ⟨by rw [hcl]; omega, by rw [hcl], fun h => absurd h hlen⟩

theorem c3_cleanup_capacity_witness :
    (cleanupCache 0 [("a", ⟨[1], [], 0⟩), ("b", ⟨[2], [], 0⟩)]).length ≤ CACHE_MAX_SIZE ∧
    (cleanupCache 0 [("a", ⟨[1], [], 0⟩), ("b", ⟨[2], [], 0⟩)]).Sublist
      (expireSweep 0 [("a", ⟨[1], [], 0⟩), ("b", ⟨[2], [], 0⟩)]) :=
  ⟨(c3_cleanup_capacity 0 [("a", ⟨[1], [], 0⟩), ("b", ⟨[2], [], 0⟩)] (by decide)).1,
   (c3_cleanup_capacity 0 [("a", ⟨[1], [], 0⟩), ("b", ⟨[2], [], 0⟩)] (by decide)).2.1⟩

/-- C7 (amended): `parseURL` without a base returns `ResolutionError`
(`null`) exactly when the permissive pattern does not match at all, or the
input begins with `http:`/`https:` (case-insensitively) while the pattern
captured no scheme, or the final `new URL` parse *fails entirely (throws)*
or yields an empty host; in every other case it returns the constructor's
normalized `href` of the preprocessed input, which assumes `http:` when no
scheme was present unless the captured port is exactly `"443"`, in which
case `https:`. -/
theorem c7_resolver_no_base_spec (newURL : String → Option URLParts) (u : String) :
    (parseURLNoBase newURL u
      = (processedURL u).bind (fun s =>
          match newURL s with
          | none => none
          | some parts => if parts.hostname == "" then none else some parts.href)) ∧
    (processedURL u = none ↔
      matchM3U8URL u = none ∨
      (∃ m, matchM3U8URL u = some m ∧ m.scheme = none ∧
        (startsWithCI u "http:" || startsWithCI u "https:") = true)) ∧
    (∀ m, matchM3U8URL u = some m → m.scheme.isSome = true →
      processedURL u = some u) ∧
    (∀ m, matchM3U8URL u = some m → m.scheme = none →
      (startsWithCI u "http:" || startsWithCI u "https:") = false →
      processedURL u = some ((if m.port == some "443" then "https:" else "http:")
        ++ (if jsStartsWith u "//" then u else "//" ++ u))) := by
  refine ⟨?_, ?_, ?_, ?_⟩
  · cases h : processedURL u <;> simp [parseURLNoBase, h]
  · cases hm : matchM3U8URL u with
    | none => simp [processedURL, hm]
    | some m =>
      cases hs : m.scheme with
      | some s => simp [processedURL, hm, hs]
      | none =>
        cases hca : (startsWithCI u "http:" || startsWithCI u "https:") with
        | true => simp [processedURL, hm, hs, hca]
        | false => simp [processedURL, hm, hs, hca]
  · intro m hm hs
    rw [processedURL.eq_def, hm]
    simp [hs]
  · intro m hm hs hca
    rw [processedURL.eq_def, hm]
    simp [hs, hca]

theorem c7_resolver_witness :
    processedURL "host:443/x" = some "https://host:443/x" :=
  (c7_resolver_no_base_spec (fun _ => none) "host:443/x").2.2.2
    ⟨none, "host", some "443", "/x"⟩ (by decide) rfl (by decide)

/-- Stand-in for the external WHATWG `new URL` constructor in the C7
counterexample: the constructor throws a `TypeError` on any special-scheme
URL whose host contains a space (U+0020 is a forbidden host code point);
the stub reflects exactly that behaviour. -/
def newURLSpaceStub : String → Option URLParts :=
  fun s => if s.toList.contains ' ' then none else some ⟨s, s⟩

/-- C7 counterexample: on input `"a b"` the permissive pattern *does* match
(capturing host `"a b"` and no scheme), the input does not claim to be
absolute, and the final parse yields no host at all — the `new URL`
constructor throws on `"http://a b"` — yet `parseURL` returns a
`ResolutionError`.  None of the claim's three conditions holds, so the
"exactly when" is refuted: failure of the final parse is a fourth error
case. -/
theorem c7_counterexample_constructor_throws :
    parseURLNoBase newURLSpaceStub "a b" = none ∧
    matchM3U8URL "a b" = some ⟨none, "a b", none, ""⟩ ∧
    (startsWithCI "a b" "http:" || startsWithCI "a b" "https:") = false ∧
    processedURL "a b" = some "http://a b" ∧
    newURLSpaceStub "http://a b" = none :=
  ⟨rfl, rfl, rfl, rfl, rfl⟩
